import Mathlib

/-!
Verification development for the List Generator application (src/app.py):
a resumable, deadline-bounded, multi-source pagination engine together with
a record-normalization pipeline (flattening nested records, deriving
carding/campus columns, deduplicating the accumulation store, and filtering
out test sports).

The Python source is shallowly embedded: pure functions become Lean
functions, the module-level mutable `FETCH_STATE` / `cached_df` pair becomes
an explicit state threaded through an `advance` step function, the network
becomes an explicit transport oracle (a function from the requested URL to
the outcome of the single HTTP attempt), and wall-clock readings become
explicit elapsed-seconds parameters.  Python dicts become association lists
with dict-update semantics; Python string falsiness (`None`/"" both falsy)
is modelled by using "" for "no value" exactly where the source only ever
tests truthiness.
-/

namespace ListGen

/-! ## Python-style string helpers (str.strip, str.lower, substring test) -/

/-- Whitespace for `str.strip()` (space, tab, newline, CR, vertical tab, form feed). -/
def isWS (c : Char) : Bool :=
  c == ' ' || c == '\t' || c == '\n' || c == '\r' || c == '\x0b' || c == '\x0c'

/-- The upper → lower case table for ASCII letters. -/
def UPPER_LOWER : List (Char × Char) :=
  [('A', 'a'), ('B', 'b'), ('C', 'c'), ('D', 'd'), ('E', 'e'), ('F', 'f'),
   ('G', 'g'), ('H', 'h'), ('I', 'i'), ('J', 'j'), ('K', 'k'), ('L', 'l'),
   ('M', 'm'), ('N', 'n'), ('O', 'o'), ('P', 'p'), ('Q', 'q'), ('R', 'r'),
   ('S', 's'), ('T', 't'), ('U', 'u'), ('V', 'v'), ('W', 'w'), ('X', 'x'),
   ('Y', 'y'), ('Z', 'z')]

/-- ASCII lower-casing of one character, as `str.lower()` acts on ASCII. -/
def lowerChar (c : Char) : Char :=
  (((UPPER_LOWER.find? (fun q => q.1 == c)).map (fun q => q.2))).getD c

def lowerChars (l : List Char) : List Char := l.map lowerChar

def stripChars (l : List Char) : List Char :=
  ((l.dropWhile isWS).reverse.dropWhile isWS).reverse

/-- `s.strip()` of Python. -/
def pyStrip (s : String) : String := ⟨stripChars s.data⟩

/-- `s.lower()` of Python (ASCII letters). -/
def pyLower (s : String) : String := ⟨lowerChars s.data⟩

/-- Substring test on character lists: some suffix of `l` starts with `p`. -/
def subOf (p l : List Char) : Bool := l.tails.any (fun t => p.isPrefixOf t)

/-- `pat in s` of Python. -/
def containsSub (s pat : String) : Bool := subOf pat.data s.data

/-! ## JSON-like raw records (the nested structures returned by one page) -/

inductive JSON where
  | null : JSON
  | bool (b : Bool) : JSON
  | int (n : Int) : JSON
  | str (s : String) : JSON
  | arr (items : List JSON) : JSON
  | obj (fields : List (String × JSON)) : JSON

/-- Escaping used by `json.dumps` for the characters it escapes in strings. -/
def escChar (c : Char) : String :=
  if c = '"' then "\\\"" else if c = '\\' then "\\\\"
  else if c = '\n' then "\\n" else if c = '\t' then "\\t"
  else if c = '\r' then "\\r" else String.singleton c

def escStr (s : String) : String := String.join (s.data.map escChar)

mutual

/-- `json.dumps(v, ensure_ascii=False)` on the embedded value universe. -/
def jsonDumps : JSON → String
  | .null => "null"
  | .bool true => "true"
  | .bool false => "false"
  | .int n => toString n
  | .str s => "\"" ++ escStr s ++ "\""
  | .arr items => "[" ++ dumpsItems items ++ "]"
  | .obj fields => "\x7b" ++ dumpsFields fields ++ "\x7d"

def dumpsItems : List JSON → String
  | [] => ""
  | [x] => jsonDumps x
  | x :: y :: rest => jsonDumps x ++ ", " ++ dumpsItems (y :: rest)

def dumpsFields : List (String × JSON) → String
  | [] => ""
  | [(k, v)] => "\"" ++ escStr k ++ "\": " ++ jsonDumps v
  | (k, v) :: q :: rest =>
      "\"" ++ escStr k ++ "\": " ++ jsonDumps v ++ ", " ++ dumpsFields (q :: rest)

end

/-- `safe_str` of src/app.py: None → "", scalars via `str`, containers via `json.dumps`. -/
def safe_str : JSON → String
  | .null => ""
  | .str s => s
  | .int n => toString n
  | .bool b => if b then "True" else "False"
  | .arr items => jsonDumps (.arr items)
  | .obj fields => jsonDumps (.obj fields)

/-! ## Flat records: Python dicts mapping string keys to string values,
modelled as insertion-ordered association lists with dict semantics. -/

abbrev JDict := List (String × String)

/-- `d.get(k)` of Python (first binding wins; dicts built here never repeat keys). -/
def dictGet (d : JDict) (k : String) : Option String :=
  (d.find? (fun q => q.1 == k)).map (fun q => q.2)

/-- `d[k] = v` of Python: update in place if present, else append. -/
def dictSet (d : JDict) (k v : String) : JDict :=
  if d.any (fun q => q.1 == k) then
    d.map (fun q => if q.1 == k then (k, v) else q)
  else d ++ [(k, v)]

/-- `d.update(e)` of Python. -/
def dictUpdate (d e : JDict) : JDict :=
  e.foldl (fun acc q => dictSet acc q.1 q.2) d

/-- `d.setdefault(k, v)` of Python (only the resulting dict; the source
ignores the returned value). -/
def setdefault (d : JDict) (k v : String) : JDict :=
  if d.any (fun q => q.1 == k) then d else d ++ [(k, v)]

mutual

/-- `flatten_json` of src/app.py: recursively flatten dicts/lists with dot
notation; a list leaf collapses to the `"; "`-join of its elements'
`safe_str` forms; a scalar leaf becomes its `safe_str` form. -/
def flatten_json : JSON → String → JDict
  | .obj fields, pre => flattenFields fields pre []
  | .arr items, pre => [(pre, String.intercalate "; " (items.map safe_str))]
  | .null, pre => [(pre, safe_str .null)]
  | .bool b, pre => [(pre, safe_str (.bool b))]
  | .int n, pre => [(pre, safe_str (.int n))]
  | .str s, pre => [(pre, safe_str (.str s))]

/-- The dict-comprehension loop body of `flatten_json` over an object's fields. -/
def flattenFields : List (String × JSON) → String → JDict → JDict
  | [], _, out => out
  | (k, v) :: rest, pre, out =>
      let newKey := if pre = "" then k else pre ++ "." ++ k
      flattenFields rest pre (dictUpdate out (flatten_json v newKey))

end

/-- Base-10 value of a digit string (`int(s)` on a digit-only string). -/
def digitsToNat (l : List Char) : Nat :=
  l.foldl (fun n c => n * 10 + (c.toNat - '0'.toNat)) 0

/-- `_coerce_int` of src/app.py: `int(str(val).strip())` when the stripped
string is nonempty and all digits (`s.isdigit()`), else None. -/
def coerce_int (val : String) : Option Nat :=
  let s := stripChars val.data
  if s ≠ [] ∧ s.all Char.isDigit then some (digitsToNat s) else none

/-! ## Carding and campus lookup tables (fixed configuration in src/app.py) -/

def CARDING_MAP : List (Nat × String) :=
  [(1, "SR"), (2, "SRI"), (3, "SR1"), (4, "SR2"), (5, "D"), (6, "DI"),
   (7, "C1"), (8, "Prov Dev 1"), (9, "Prov Dev 2"), (10, "Prov Dev 3"),
   (11, "NSO Affiliated (Uncarded)"), (12, "C1I"), (13, "GamePlan Retired"),
   (14, "PSO Affiliated (Uncarded)"), (15, "GamePlan Retired"),
   (16, "PSO Affiliated (Uncarded)")]

/-- `CARDING_MAP.get(cand_val, f"Unknown ({cand_val})")`. -/
def cardingLabel (n : Nat) : String :=
  (((CARDING_MAP.find? (fun q => q.1 == n)).map (fun q => q.2))).getD
    ("Unknown (" ++ toString n ++ ")")

def CAMPUS_LABEL_MAP : List (Nat × String) :=
  [(1, "CSI Pacific - Victoria"), (2, "CSI Pacific - Vancouver"),
   (3, "CSI Pacific - Whistler"), (4, "Engage Sport North"),
   (5, "Pacific Sport - Columbia Basin"), (6, "Pacific Sport - Fraser Valley"),
   (7, "Pacific Sport - Interior"), (8, "Pacific Sport - Okanagan"),
   (9, "Pacific Sport - Vancouver Island"), (10, "Other"),
   (11, "Unsure"), (12, "Not Applicable")]

/-- `CAMPUS_LABEL_MAP.get(campus_id, f"Unknown ({campus_id})")`. -/
def campusLabel (cid : Nat) : String :=
  (((CAMPUS_LABEL_MAP.find? (fun q => q.1 == cid)).map (fun q => q.2))).getD
    ("Unknown (" ++ toString cid ++ ")")

/-- `m.get(k, default)` for the city → campus table (loaded from external
CSV configuration; threaded as an explicit parameter). -/
def mapGet (m : List (String × String)) (k default : String) : String :=
  (((m.find? (fun q => q.1 == k)).map (fun q => q.2))).getD default

/-! ## derive_carding_columns -/

def candidate_keys : List String :=
  ["carding_level", "carding_level_id", "carding.id",
   "carding_level.pk", "carding_pk", "athlete.carding_level_id",
   "profile.carding_level_id"]

/-- The candidate-key scan loop of `derive_carding_columns`: first key whose
present, non-empty value coerces to an int; the loop keeps scanning past
keys whose value fails to coerce. -/
def findCand : List String → JDict → Option Nat
  | [], _ => none
  | k :: rest, flat =>
    match dictGet flat k with
    | none => findCand rest flat
    | some v =>
      if v = "" then findCand rest flat
      else
        match coerce_int v with
        | some n => some n
        | none => findCand rest flat

/-- `derive_carding_columns` of src/app.py. -/
def derive_carding_columns (flat : JDict) : JDict :=
  match findCand candidate_keys flat with
  | some n =>
      dictSet (dictSet flat "carding_level_id" (toString n))
        "carding_level_mapped" (cardingLabel n)
  | none =>
      setdefault (setdefault flat "carding_level_id" "") "carding_level_mapped" ""

/-! ## flatten_profile -/

/-- `a or b` of Python on strings obtained with `.get(...)`: missing keys and
empty strings are both falsy, so `get(k) or e` is `e` when the value is
absent or empty. -/
def pyOr (a b : String) : String := if a = "" then b else a

def getStr (d : JDict) (k : String) : String := (dictGet d k).getD ""

/-- The `birth_city` fallback chain of `flatten_profile`. -/
def birthCityOf (flat : JDict) : String :=
  pyOr (getStr flat "birth_city.name")
    (pyOr (getStr flat "person.birth_city.name")
      (pyOr (getStr flat "profile.birth_city.name") ""))

/-- The `residence_city` fallback chain of `flatten_profile`. -/
def resCityOf (flat : JDict) : String :=
  pyOr (getStr flat "residence_city.name")
    (pyOr (getStr flat "person.residence_city.name")
      (pyOr (getStr flat "profile.residence_city.name") ""))

/-- Normalize a city to its lookup key and map it through the city → campus
table; an empty city, like an unmapped key, yields the empty string
(`CITY_TO_CAMPUS.get(key, "") if key else ""`). -/
def campusFromCity (cityMap : List (String × String)) (city : String) : String :=
  let key := if city = "" then "" else pyLower (pyStrip city)
  if key = "" then "" else mapGet cityMap key ""

/-- `flatten_profile` of src/app.py: flatten the raw profile, attach the
campus id/label, map birth and residence cities through the city → campus
table, then derive the carding columns. -/
def flatten_profile (cityMap : List (String × String)) (p : JSON) (campus_id : Nat) : JDict :=
  let flat0 := flatten_json p ""
  let flat1 := dictSet flat0 "campus_id" (toString campus_id)
  let flat2 := dictSet flat1 "campus_label" (campusLabel campus_id)
  let birth_city := birthCityOf flat2
  let res_city := resCityOf flat2
  let flat3 := dictSet flat2 "campus_by_birth" (campusFromCity cityMap birth_city)
  let flat4 := dictSet flat3 "current_campus" (campusFromCity cityMap res_city)
  derive_carding_columns flat4

/-! ## Networking constants and the single-page fetcher -/

def PAGE_LIMIT : Nat := 50
def MAX_FETCH_SECONDS : Nat := 10
def RETRYABLE_STATUSES : List Nat := [502, 503, 504, 524]
def PROFILES_URL : String := "https://apps.csipacific.ca/api/registration/profile/"

/-- The outcome of the single HTTP GET attempt: a connect/read timeout or
connection reset (the caught `requests` exception classes), any other
unexpected exception, or a response with its status, parsed result list and
DRF `next` pointer ("" models a null `next`). -/
inductive HttpOutcome where
  | timeoutErr : HttpOutcome
  | otherErr : HttpOutcome
  | response (status : Nat) (results : List JSON) (next : String) : HttpOutcome

/-- The `limit=` normalization at the top of `fetch_paginated_chunk`:
append `limit=50` unless the URL already carries a `limit=` parameter. -/
def addLimit (url : String) : String :=
  if containsSub url "limit=" then url
  else url ++ (if containsSub url "?" then "&" else "?") ++ "limit=" ++ toString PAGE_LIMIT

def isRetryableOutcome : HttpOutcome → Bool
  | .timeoutErr => true
  | .otherErr => false
  | .response status _ _ => RETRYABLE_STATUSES.contains status

def isFatalOutcome : HttpOutcome → Bool
  | .timeoutErr => false
  | .otherErr => true
  | .response status _ _ => !RETRYABLE_STATUSES.contains status && status != 200

/-- `fetch_paginated_chunk` of src/app.py.  `now`/`deadline` are the clock
reading at its deadline guard and the orchestrator deadline; `transport`
maps the URL actually requested to the attempt's outcome.  Returns the rows,
the continuation URL ("" = None: campus finished or fatal error), and how
many HTTP requests were issued (0 or 1). -/
def fetch_paginated_chunk (url : String) (now deadline : Nat)
    (transport : String → HttpOutcome) : List JSON × String × Nat :=
  if url = "" ∨ deadline ≤ now then ([], url, 0)
  else
    match transport (addLimit url) with
    | .timeoutErr => ([], addLimit url, 1)
    | .otherErr => ([], "", 1)
    | .response status results nxt =>
      if status ∈ RETRYABLE_STATUSES then ([], addLimit url, 1)
      else if status ≠ 200 then ([], "", 1)
      else (results, nxt, 1)

/-! ## FETCH_STATE and the advance step (the fetch portion of `fetch_profiles`) -/

/-- `FETCH_STATE` of src/app.py.  `next_url = ""` models None. -/
structure FetchState where
  campus_ids : List Nat
  current_index : Nat
  next_url : String
  done : Bool
  total_rows : Nat
deriving DecidableEq

/-- The campus ids collected from `CAMPUS_OPTS` (the int-valued options). -/
def allCampusIds : List Nat := [1, 2, 3, 4, 5, 6, 7, 8, 9, 10, 11, 12]

/-- The fresh state built when the Fetch button starts a new cycle. -/
def freshState (campuses : List Nat) : FetchState :=
  { campus_ids := campuses, current_index := 0, next_url := "", done := false,
    total_rows := 0 }

/-- Lines 853-869 of src/app.py: on a `btn-fetch` trigger the state and the
cached accumulation are reset only when the previous cycle is done or this
is the first click; otherwise the active cycle continues untouched. -/
def resetOnFetchClick (st : FetchState) (store : List JDict) (n_clicks : Nat) :
    FetchState × List JDict :=
  if st.done = true ∨ n_clicks ≤ 1 then (freshState allCampusIds, [])
  else (st, store)

def ROLE_ID_MAP : List (String × Nat) := [("athlete", 1), ("coach", 2), ("staff", 4)]

/-- `ROLE_ID_MAP.get(role_val, "")` — 0 models the falsy "". -/
def roleIdOf (role_val : String) : Nat :=
  (((ROLE_ID_MAP.find? (fun q => q.1 == role_val)).map (fun q => q.2))).getD 0

/-- The base query URL built for a campus when no continuation is stored. -/
def buildUrl (cid role_id : Nat) : String :=
  let base := PROFILES_URL ++ "?campus_id=" ++ toString cid
  if role_id ≠ 0 then base ++ "&role_id=" ++ toString role_id else base

/-- Lines 918-922 of src/app.py: the URL this trigger fetches — the stored
continuation, or the campus base query when none is stored. -/
def reqUrl (st : FetchState) (role_id : Nat) : String :=
  if st.next_url = "" then
    buildUrl (st.campus_ids.getD st.current_index 0) role_id
  else st.next_url

/-- Deduplication keeping first occurrences, as `DataFrame.drop_duplicates()`
acts on rows (worker with the set of already-kept rows). -/
def dropDupsAux {α : Type} [DecidableEq α] : List α → List α → List α
  | _, [] => []
  | seen, r :: rest =>
    if r ∈ seen then dropDupsAux seen rest else r :: dropDupsAux (r :: seen) rest

/-- `drop_duplicates()` of pandas on a list of rows. -/
def dropDups {α : Type} [DecidableEq α] (l : List α) : List α := dropDupsAux [] l

/-- Lines 959-968 of src/app.py: merge newly flattened rows into the cached
accumulation.  An empty batch leaves the store alone; a batch merged into an
empty store is stored as-is; otherwise the concatenation is deduplicated
keeping first occurrences (`pd.concat(...).drop_duplicates()`). -/
def append_rows (store newRows : List JDict) : List JDict :=
  if newRows = [] then store
  else if store = [] then newRows
  else dropDups (store ++ newRows)

/-- One external trigger of `fetch_profiles` (the interval tick / button
callback): the dropdown state read by the callback and the clock readings,
as elapsed seconds past `start`, at the two deadline checks. -/
structure Tick where
  role_val : String
  e1 : Nat
  e2 : Nat
  transport : String → HttpOutcome

/-- Lines 936-949 of src/app.py: how `FETCH_STATE` moves after one chunk. -/
def updState (st : FetchState) (rowCount : Nat) (new_next : String) : FetchState :=
  if new_next ≠ "" then
    { st with total_rows := st.total_rows + rowCount, next_url := new_next }
  else
    { st with total_rows := st.total_rows + rowCount,
              current_index := st.current_index + 1, next_url := "",
              done := decide (st.campus_ids.length ≤ st.current_index + 1) }

structure AdvanceResult where
  state : FetchState
  store : List JDict
  newRows : List JDict
  cont : String
  requests : Nat

/-- The fetch portion of `fetch_profiles` (lines 909-968 of src/app.py):
if the run is not done, fetch at most one page of the active campus, flatten
its rows, update `FETCH_STATE`, and merge the new rows into the cache. -/
def advance (cityMap : List (String × String)) (st : FetchState)
    (store : List JDict) (tk : Tick) : AdvanceResult :=
  if st.done = false ∧ st.current_index < st.campus_ids.length ∧
      tk.e1 < MAX_FETCH_SECONDS then
    let cid := st.campus_ids.getD st.current_index 0
    let r := fetch_paginated_chunk (reqUrl st (roleIdOf tk.role_val)) tk.e2
      MAX_FETCH_SECONDS tk.transport
    let newRows := r.1.map (fun p => flatten_profile cityMap p cid)
    { state := updState st r.1.length r.2.1,
      store := append_rows store newRows,
      newRows := newRows, cont := r.2.1, requests := r.2.2 }
  else
    { state := st, store := store, newRows := [], cont := "", requests := 0 }

/-! ## Traces of advance steps (state evolution across external triggers) -/

/-- The state evolution of one trigger (the store does not influence it). -/
def stepState (cityMap : List (String × String)) (st : FetchState) (tk : Tick) :
    FetchState := (advance cityMap st [] tk).state

def defaultTick : Tick := ⟨"", 0, 0, fun _ => HttpOutcome.otherErr⟩

def tickAt (ticks : List Tick) (k : Nat) : Tick := ticks.getD k defaultTick

/-- The state after the first `k` triggers of `ticks` (all of them if fewer). -/
def stAfter (cityMap : List (String × String)) (st : FetchState) :
    List Tick → Nat → FetchState
  | [], _ => st
  | tk :: rest, k =>
    match k with
    | 0 => st
    | k' + 1 => stAfter cityMap (stepState cityMap st tk) rest k'

/-- Active index after `k` triggers from a fresh run over `campuses`. -/
def idxAt (cityMap : List (String × String)) (campuses : List Nat)
    (ticks : List Tick) (k : Nat) : Nat :=
  (stAfter cityMap (freshState campuses) ticks k).current_index

/-- Continuation returned by the chunk at trigger `k` of a fresh run. -/
def contAt (cityMap : List (String × String)) (campuses : List Nat)
    (ticks : List Tick) (k : Nat) : String :=
  (advance cityMap (stAfter cityMap (freshState campuses) ticks k) [] (tickAt ticks k)).cont

/-! ## Test-sport exclusion filter -/

def TEST_SPORTS : List String := ["Cinderball (TEST)", "Skimboarding Cross (TEST)"]

def TEST_SPORTS_NORMALIZED : List String :=
  TEST_SPORTS.map (fun s => pyLower (pyStrip s))

/-- A DataFrame: its column list together with its rows; a row's value in a
column is its dict entry, with a missing entry playing NaN (`fillna("")`). -/
structure DF where
  cols : List String
  rows : List JDict

def SPORT_COLS : List String :=
  ["sport.name", "current_nomination.sport.name", "Sport", "Nomination Sport Name"]

/-- `.str.strip().str.lower()` normalization applied to each cell. -/
def normCell (s : String) : String := pyLower (pyStrip s)

/-- One cell's test: exact membership in the normalized test-sport set, or a
case-insensitive "(test" substring (the cell is already lowercased). -/
def isTestVal (s : String) : Bool :=
  TEST_SPORTS_NORMALIZED.contains (normCell s) || containsSub (normCell s) "(test"

/-- `remove_test_sports` of src/app.py: drop every row for which any of the
present sport columns indicates a TEST sport. -/
def remove_test_sports (df : DF) : DF :=
  if df.rows.isEmpty then df
  else
    let cols := SPORT_COLS.filter (fun c => df.cols.contains c)
    if cols.isEmpty then df
    else
      { df with rows :=
          df.rows.filter (fun r => cols.all (fun c => ! isTestVal ((dictGet r c).getD ""))) }

/-! ## Dictionary lemmas -/

theorem find?_map_set_same (d : JDict) (k v : String)
    (h : d.any (fun q => q.1 == k) = true) :
    (d.map (fun q => if q.1 == k then (k, v) else q)).find? (fun q => q.1 == k)
      = some (k, v) := by
  induction d with
  | nil => simp at h
  | cons a rest ih =>
    rw [List.map_cons]
    by_cases hk : a.1 = k
    · have ha : (if (a.1 == k) = true then (k, v) else a) = (k, v) := by simp [hk]
      rw [ha, List.find?_cons_of_pos _ (by simp)]
    · simp only [List.any_cons, Bool.or_eq_true, beq_iff_eq, hk, false_or] at h
      have ha : (if (a.1 == k) = true then (k, v) else a) = a := by simp [hk]
      rw [ha, List.find?_cons_of_neg _ (by simp [hk]), ih h]

theorem find?_map_set_ne (d : JDict) (k v k' : String) (hne : k' ≠ k) :
    (d.map (fun q => if q.1 == k then (k, v) else q)).find? (fun q => q.1 == k')
      = d.find? (fun q => q.1 == k') := by
  induction d with
  | nil => rfl
  | cons a rest ih =>
    rw [List.map_cons]
    by_cases hk : a.1 = k
    · have hak' : ¬ a.1 = k' := by rw [hk]; exact fun h => hne h.symm
      have ha : (if (a.1 == k) = true then (k, v) else a) = (k, v) := by simp [hk]
      rw [ha, List.find?_cons_of_neg _ (by simp [Ne.symm hne]),
        List.find?_cons_of_neg _ (by simp [hak']), ih]
    · have ha : (if (a.1 == k) = true then (k, v) else a) = a := by simp [hk]
      by_cases hk' : a.1 = k'
      · rw [ha, List.find?_cons_of_pos _ (by simp [hk']),
          List.find?_cons_of_pos _ (by simp [hk'])]
      · rw [ha, List.find?_cons_of_neg _ (by simp [hk']),
          List.find?_cons_of_neg _ (by simp [hk']), ih]

theorem any_key_eq_isSome (d : JDict) (k : String) :
    d.any (fun q => q.1 == k) = (d.find? (fun q => q.1 == k)).isSome := by
  induction d with
  | nil => rfl
  | cons a rest ih =>
    by_cases hk : a.1 = k
    · rw [List.find?_cons_of_pos _ (by simp [hk])]
      simp [hk]
    · rw [List.find?_cons_of_neg _ (by simp [hk])]
      simp [hk, ih]

theorem dictGet_dictSet_same (d : JDict) (k v : String) :
    dictGet (dictSet d k v) k = some v := by
  unfold dictGet dictSet
  by_cases h : d.any (fun q => q.1 == k) = true
  · simp only [h, if_true, find?_map_set_same d k v h, Option.map_some']
  · have hnone : d.find? (fun q => q.1 == k) = none := by
      rw [any_key_eq_isSome] at h
      exact Option.not_isSome_iff_eq_none.mp (by simpa using h)
    simp [h, List.find?_append, hnone, List.find?]

theorem dictGet_dictSet_ne (d : JDict) (k v k' : String) (hne : k' ≠ k) :
    dictGet (dictSet d k v) k' = dictGet d k' := by
  unfold dictGet dictSet
  by_cases h : d.any (fun q => q.1 == k) = true
  · simp only [h, if_true, find?_map_set_ne d k v k' hne]
  · simp only [h, if_false, Bool.false_eq_true, List.find?_append]
    have : List.find? (fun q => q.1 == k') [(k, v)] = none := by
      rw [List.find?_cons_of_neg _ (by simp [Ne.symm hne])]; rfl
    rw [this, Option.or_none]

theorem dictGet_setdefault_ne (d : JDict) (k v k' : String) (hne : k' ≠ k) :
    dictGet (setdefault d k v) k' = dictGet d k' := by
  unfold setdefault
  by_cases h : d.any (fun q => q.1 == k) = true
  · simp [h]
  · simp only [h, if_false, Bool.false_eq_true, dictGet, List.find?_append]
    have : List.find? (fun q => q.1 == k') [(k, v)] = none := by
      rw [List.find?_cons_of_neg _ (by simp [Ne.symm hne])]; rfl
    rw [this, Option.or_none]

theorem dictGet_setdefault_present (d : JDict) (k v w : String)
    (h : dictGet d k = some w) : dictGet (setdefault d k v) k = some w := by
  unfold setdefault
  have hs : (d.find? (fun q => q.1 == k)).isSome = true := by
    unfold dictGet at h
    cases hf : d.find? (fun q => q.1 == k) <;> simp [hf] at h ⊢
  rw [← any_key_eq_isSome] at hs
  simp [hs, h]

theorem dictGet_setdefault_absent (d : JDict) (k v : String)
    (h : dictGet d k = none) : dictGet (setdefault d k v) k = some v := by
  unfold setdefault
  have hf : d.find? (fun q => q.1 == k) = none := by
    unfold dictGet at h
    cases hf : d.find? (fun q => q.1 == k) <;> simp [hf] at h ⊢
  have hs : d.any (fun q => q.1 == k) = false := by
    rw [any_key_eq_isSome, hf]; rfl
  simp [hs, dictGet, List.find?_append, hf, List.find?]

/-- `derive_carding_columns` touches only the two carding keys. -/
theorem derive_get_ne (flat : JDict) (k : String)
    (h1 : k ≠ "carding_level_id") (h2 : k ≠ "carding_level_mapped") :
    dictGet (derive_carding_columns flat) k = dictGet flat k := by
  unfold derive_carding_columns
  cases findCand candidate_keys flat with
  | some n => rw [dictGet_dictSet_ne _ _ _ _ h2, dictGet_dictSet_ne _ _ _ _ h1]
  | none => rw [dictGet_setdefault_ne _ _ _ _ h2, dictGet_setdefault_ne _ _ _ _ h1]

/-! ## flatten_profile propagation lemmas -/

theorem getStr_dictSet_ne (d : JDict) (k v k' : String) (hne : k' ≠ k) :
    getStr (dictSet d k v) k' = getStr d k' := by
  unfold getStr; rw [dictGet_dictSet_ne _ _ _ _ hne]

theorem birthCityOf_dictSet (d : JDict) (k v : String)
    (h1 : k ≠ "birth_city.name") (h2 : k ≠ "person.birth_city.name")
    (h3 : k ≠ "profile.birth_city.name") :
    birthCityOf (dictSet d k v) = birthCityOf d := by
  unfold birthCityOf
  rw [getStr_dictSet_ne _ _ _ _ (Ne.symm h1), getStr_dictSet_ne _ _ _ _ (Ne.symm h2),
    getStr_dictSet_ne _ _ _ _ (Ne.symm h3)]

theorem resCityOf_dictSet (d : JDict) (k v : String)
    (h1 : k ≠ "residence_city.name") (h2 : k ≠ "person.residence_city.name")
    (h3 : k ≠ "profile.residence_city.name") :
    resCityOf (dictSet d k v) = resCityOf d := by
  unfold resCityOf
  rw [getStr_dictSet_ne _ _ _ _ (Ne.symm h1), getStr_dictSet_ne _ _ _ _ (Ne.symm h2),
    getStr_dictSet_ne _ _ _ _ (Ne.symm h3)]

/-- The campus id attached by `flatten_profile` survives to the output. -/
theorem flatten_profile_campus_id (cityMap : List (String × String)) (p : JSON)
    (cid : Nat) :
    dictGet (flatten_profile cityMap p cid) "campus_id" = some (toString cid) := by
  unfold flatten_profile
  rw [derive_get_ne _ _ (by decide) (by decide),
    dictGet_dictSet_ne _ _ _ _ (by decide), dictGet_dictSet_ne _ _ _ _ (by decide),
    dictGet_dictSet_ne _ _ _ _ (by decide), dictGet_dictSet_same]

/-- The two mapped campus fields of `flatten_profile`, in terms of the raw
flattened record. -/
theorem flatten_profile_campus_fields (cityMap : List (String × String)) (p : JSON)
    (cid : Nat) :
    dictGet (flatten_profile cityMap p cid) "campus_by_birth"
      = some (campusFromCity cityMap (birthCityOf (flatten_json p ""))) ∧
    dictGet (flatten_profile cityMap p cid) "current_campus"
      = some (campusFromCity cityMap (resCityOf (flatten_json p ""))) := by
  unfold flatten_profile
  constructor
  · rw [derive_get_ne _ _ (by decide) (by decide),
      dictGet_dictSet_ne _ _ _ _ (by decide), dictGet_dictSet_same,
      birthCityOf_dictSet _ _ _ (by decide) (by decide) (by decide),
      birthCityOf_dictSet _ _ _ (by decide) (by decide) (by decide)]
  · rw [derive_get_ne _ _ (by decide) (by decide), dictGet_dictSet_same,
      resCityOf_dictSet _ _ _ (by decide) (by decide) (by decide),
      resCityOf_dictSet _ _ _ (by decide) (by decide) (by decide)]

/-- A city whose normalized key the city → campus table lacks maps to "". -/
theorem campusFromCity_unmapped (cityMap : List (String × String)) (city : String)
    (h : cityMap.find? (fun q => q.1 == pyLower (pyStrip city)) = none) :
    campusFromCity cityMap city = "" := by
  unfold campusFromCity
  by_cases hc : city = ""
  · simp [hc]
  · simp only [hc, if_false]
    by_cases hk : pyLower (pyStrip city) = ""
    · simp [hk]
    · simp only [hk, if_false]
      unfold mapGet
      rw [h]; rfl

/-! ## C6: flatten correctness -/

/-- C6: `flatten_json` dot-joins nested map keys recursively, collapses a
list-valued leaf to the single "; "-join of its elements' stringifications,
and stringifies scalar leaves with null becoming ""; in particular flattening
the record with "a" mapped to the map with "b" mapped to 1, and "c" mapped to
the list of 1 and 2, gives exactly the keys "a.b" with value "1" and "c" with
value "1; 2". -/
theorem flatten_json_spec :
    flatten_json (JSON.obj [("a", JSON.obj [("b", JSON.int 1)]),
        ("c", JSON.arr [JSON.int 1, JSON.int 2])]) ""
      = [("a.b", "1"), ("c", "1; 2")] ∧
    (∀ (pre : String) (items : List JSON),
      flatten_json (JSON.arr items) pre
        = [(pre, String.intercalate "; " (items.map safe_str))]) ∧
    (∀ pre : String, flatten_json JSON.null pre = [(pre, "")]) ∧
    (∀ (pre s : String), flatten_json (JSON.str s) pre = [(pre, s)]) ∧
    (∀ (pre : String) (n : Int), flatten_json (JSON.int n) pre = [(pre, toString n)]) :=
  ⟨by decide, fun _ _ => rfl, fun _ => rfl, fun _ _ => rfl, fun _ _ => rfl⟩

/-! ## C7: unknown carding codes and unmapped cities -/

/-- C7: a record whose carding code parses to an integer absent from
`CARDING_MAP` gets the visible label "Unknown (<code>)" (the placeholder the
code renders with a space before the parenthesis), which is never the empty
string; and a record whose birth (resp. residence) city is absent from the
city → campus mapping gets "" in `campus_by_birth` (resp. `current_campus`)
rather than an error. -/
theorem carding_unknown_city_unmapped :
    (∀ (flat : JDict) (n : Nat), findCand candidate_keys flat = some n →
      CARDING_MAP.find? (fun q => q.1 == n) = none →
      dictGet (derive_carding_columns flat) "carding_level_mapped"
        = some ("Unknown (" ++ toString n ++ ")") ∧
      ("Unknown (" ++ toString n ++ ")") ≠ "") ∧
    (∀ (cityMap : List (String × String)) (p : JSON) (cid : Nat),
      cityMap.find? (fun q => q.1 == pyLower (pyStrip (birthCityOf (flatten_json p "")))) = none →
      dictGet (flatten_profile cityMap p cid) "campus_by_birth" = some "") ∧
    (∀ (cityMap : List (String × String)) (p : JSON) (cid : Nat),
      cityMap.find? (fun q => q.1 == pyLower (pyStrip (resCityOf (flatten_json p "")))) = none →
      dictGet (flatten_profile cityMap p cid) "current_campus" = some "") := by
  refine ⟨fun flat n hf hm => ⟨?_, ?_⟩, fun cityMap p cid h => ?_, fun cityMap p cid h => ?_⟩
  · unfold derive_carding_columns
    rw [hf, dictGet_dictSet_same]
    unfold cardingLabel
    rw [hm]; rfl
  · intro hcon
    have h0 := congrArg String.length hcon
    rw [String.length_append, String.length_append] at h0
    have h9 : ("Unknown (" : String).length = 9 := rfl
    have hp : (")" : String).length = 1 := rfl
    have he : ("" : String).length = 0 := rfl
    omega
  · rw [(flatten_profile_campus_fields cityMap p cid).1,
      campusFromCity_unmapped _ _ h]
  · rw [(flatten_profile_campus_fields cityMap p cid).2,
      campusFromCity_unmapped _ _ h]

/-- Witness for C7: the code 99 is not in `CARDING_MAP` and yields the label
"Unknown (99)"; the city "Nanaimo" is absent from a one-entry city map and
yields "" for both mapped campus fields. -/
theorem carding_unknown_city_unmapped_witness :
    dictGet (derive_carding_columns [("carding_level", "99")]) "carding_level_mapped"
      = some "Unknown (99)" ∧
    dictGet (flatten_profile [("victoria", "CSI Pacific - Victoria")]
        (JSON.obj [("birth_city", JSON.obj [("name", JSON.str "Nanaimo")])]) 1)
        "campus_by_birth" = some "" ∧
    dictGet (flatten_profile [("victoria", "CSI Pacific - Victoria")]
        (JSON.obj [("birth_city", JSON.obj [("name", JSON.str "Nanaimo")])]) 1)
        "current_campus" = some "" :=
  ⟨(carding_unknown_city_unmapped.1 [("carding_level", "99")] 99 (by decide) (by decide)).1,
   carding_unknown_city_unmapped.2.1 [("victoria", "CSI Pacific - Victoria")]
     (JSON.obj [("birth_city", JSON.obj [("name", JSON.str "Nanaimo")])]) 1 (by decide),
   carding_unknown_city_unmapped.2.2 [("victoria", "CSI Pacific - Victoria")]
     (JSON.obj [("birth_city", JSON.obj [("name", JSON.str "Nanaimo")])]) 1 (by decide)⟩

/-! ## C10: no candidate key parses -/

theorem findCand_none (ks : List String) (flat : JDict)
    (H : ∀ k ∈ ks, (dictGet flat k).bind coerce_int = none) :
    findCand ks flat = none := by
  induction ks with
  | nil => rfl
  | cons k rest ih =>
    have hk := H k (List.mem_cons_self k rest)
    have hrest : ∀ k' ∈ rest, (dictGet flat k').bind coerce_int = none :=
      fun k' h' => H k' (List.mem_cons_of_mem k h')
    unfold findCand
    cases hg : dictGet flat k with
    | none => exact ih hrest
    | some v =>
      rw [hg] at hk
      have hk' : coerce_int v = none := by simpa using hk
      by_cases hv : v = ""
      · simp only [hv, if_true]
        exact ih hrest
      · simp only [hv, if_false]
        rw [hk']
        exact ih hrest

/-- C10: when no candidate carding key holds a value coercible to an int
(negative numbers, decimals and free text all fail `_coerce_int`), the
derivation fills both carding columns with "" via `setdefault`, so an
existing value under either key is never overwritten and no Unknown
placeholder is produced. -/
theorem derive_no_parse (flat : JDict)
    (H : ∀ k ∈ candidate_keys, (dictGet flat k).bind coerce_int = none) :
    (dictGet flat "carding_level_id" = none →
      dictGet (derive_carding_columns flat) "carding_level_id" = some "") ∧
    (∀ v, dictGet flat "carding_level_id" = some v →
      dictGet (derive_carding_columns flat) "carding_level_id" = some v) ∧
    (dictGet flat "carding_level_mapped" = none →
      dictGet (derive_carding_columns flat) "carding_level_mapped" = some "") ∧
    (∀ v, dictGet flat "carding_level_mapped" = some v →
      dictGet (derive_carding_columns flat) "carding_level_mapped" = some v) := by
  have hd : derive_carding_columns flat
      = setdefault (setdefault flat "carding_level_id" "") "carding_level_mapped" "" := by
    unfold derive_carding_columns
    rw [findCand_none candidate_keys flat H]
  refine ⟨fun h => ?_, fun v h => ?_, fun h => ?_, fun v h => ?_⟩
  · rw [hd, dictGet_setdefault_ne _ _ _ _ (by decide)]
    exact dictGet_setdefault_absent _ _ _ h
  · rw [hd, dictGet_setdefault_ne _ _ _ _ (by decide)]
    exact dictGet_setdefault_present _ _ _ _ h
  · rw [hd]
    apply dictGet_setdefault_absent
    rw [dictGet_setdefault_ne _ _ _ _ (by decide)]
    exact h
  · rw [hd]
    apply dictGet_setdefault_present
    rw [dictGet_setdefault_ne _ _ _ _ (by decide)]
    exact h

/-- Witness for C10: a record whose only candidate value is "-3" (which does
not coerce) gets "" for the absent id column while its pre-existing mapped
column "KEEP" is not overwritten. -/
theorem derive_no_parse_witness :
    dictGet (derive_carding_columns [("carding_level", "-3"), ("carding_level_mapped", "KEEP")])
      "carding_level_id" = some "" ∧
    dictGet (derive_carding_columns [("carding_level", "-3"), ("carding_level_mapped", "KEEP")])
      "carding_level_mapped" = some "KEEP" :=
  ⟨(derive_no_parse [("carding_level", "-3"), ("carding_level_mapped", "KEEP")]
      (by decide)).1 (by decide),
   (derive_no_parse [("carding_level", "-3"), ("carding_level_mapped", "KEEP")]
      (by decide)).2.2.2 "KEEP" (by decide)⟩

/-! ## C9: deduplicating append into the accumulation store -/

theorem mem_dropDupsAux {α : Type} [DecidableEq α] (seen l : List α) (x : α) :
    x ∈ dropDupsAux seen l ↔ x ∈ l ∧ x ∉ seen := by
  induction l generalizing seen with
  | nil => simp [dropDupsAux]
  | cons a rest ih =>
    unfold dropDupsAux
    by_cases ha : a ∈ seen
    · rw [if_pos ha, ih]
      constructor
      · exact fun ⟨h1, h2⟩ => ⟨List.mem_cons_of_mem a h1, h2⟩
      · rintro ⟨h1, h2⟩
        rcases List.mem_cons.mp h1 with rfl | h1
        · exact absurd ha h2
        · exact ⟨h1, h2⟩
    · rw [if_neg ha]
      constructor
      · intro hx
        rcases List.mem_cons.mp hx with rfl | hx
        · exact ⟨List.mem_cons_self x rest, ha⟩
        · have hm := (ih (a :: seen)).mp hx
          exact ⟨List.mem_cons_of_mem a hm.1,
            fun hs => hm.2 (List.mem_cons_of_mem a hs)⟩
      · rintro ⟨h1, h2⟩
        rcases List.mem_cons.mp h1 with rfl | h1
        · exact List.mem_cons_self x _
        · by_cases hxa : x = a
          · subst hxa; exact List.mem_cons_self x _
          · refine List.mem_cons_of_mem a ((ih (a :: seen)).mpr ⟨h1, fun hs => ?_⟩)
            rcases List.mem_cons.mp hs with h | h
            · exact hxa h
            · exact h2 h

theorem nodup_dropDupsAux {α : Type} [DecidableEq α] (seen l : List α) :
    (dropDupsAux seen l).Nodup := by
  induction l generalizing seen with
  | nil => exact List.nodup_nil
  | cons a rest ih =>
    unfold dropDupsAux
    by_cases ha : a ∈ seen
    · rw [if_pos ha]; exact ih seen
    · rw [if_neg ha]
      refine List.nodup_cons.mpr ⟨fun hmem => ?_, ih (a :: seen)⟩
      exact ((mem_dropDupsAux (a :: seen) rest a).mp hmem).2 (List.mem_cons_self a seen)

theorem dropDupsAux_all_seen {α : Type} [DecidableEq α] (seen l : List α)
    (h : ∀ x ∈ l, x ∈ seen) : dropDupsAux seen l = [] := by
  induction l with
  | nil => rfl
  | cons a rest ih =>
    unfold dropDupsAux
    rw [if_pos (h a (List.mem_cons_self a rest))]
    exact ih (fun x hx => h x (List.mem_cons_of_mem a hx))

theorem dropDupsAux_append_eq {α : Type} [DecidableEq α] (seen l₁ l₂ : List α)
    (h1 : l₁.Nodup) (h2 : ∀ x ∈ l₁, x ∉ seen) (h3 : ∀ x ∈ l₂, x ∈ seen ∨ x ∈ l₁) :
    dropDupsAux seen (l₁ ++ l₂) = l₁ := by
  induction l₁ generalizing seen with
  | nil =>
    simp only [List.nil_append]
    exact dropDupsAux_all_seen seen l₂ (fun x hx => (h3 x hx).resolve_right (by simp))
  | cons a rest ih =>
    rw [List.cons_append]
    unfold dropDupsAux
    rw [if_neg (h2 a (List.mem_cons_self a rest))]
    have hnodup := List.nodup_cons.mp h1
    congr 1
    refine ih (a :: seen) hnodup.2 (fun x hx hmem => ?_) (fun x hx => ?_)
    · rcases List.mem_cons.mp hmem with rfl | hmem
      · exact hnodup.1 hx
      · exact h2 x (List.mem_cons_of_mem a hx) hmem
    · rcases h3 x hx with h | h
      · exact Or.inl (List.mem_cons_of_mem a h)
      · rcases List.mem_cons.mp h with rfl | h
        · exact Or.inl (List.mem_cons_self x seen)
        · exact Or.inr h

theorem mem_dropDups {α : Type} [DecidableEq α] (l : List α) (x : α) :
    x ∈ dropDups l ↔ x ∈ l := by
  unfold dropDups
  rw [mem_dropDupsAux]
  simp

theorem dropDups_ne_nil {α : Type} [DecidableEq α] (l : List α) (h : l ≠ []) :
    dropDups l ≠ [] := by
  cases l with
  | nil => exact absurd rfl h
  | cons a rest =>
    unfold dropDups dropDupsAux
    rw [if_neg (List.not_mem_nil a)]
    exact List.cons_ne_nil _ _

/-- C9 counterexample: appending the same page twice can change the store's
size when the store was empty and the page holds duplicate rows — the first
append into an empty store skips `drop_duplicates`, so the store has size 2,
and the second append deduplicates down to size 1. -/
theorem append_rows_twice_counterexample :
    (append_rows ([] : List JDict) [[("a", "1")], [("a", "1")]]).length = 2 ∧
    (append_rows (append_rows ([] : List JDict) [[("a", "1")], [("a", "1")]])
        [[("a", "1")], [("a", "1")]]).length = 1 := by
  constructor <;> decide

/-- C9 amended: appending a batch into a nonempty store unions it with exact
duplicate rows removed, and appending the same page's records a second time
leaves the store unchanged (hence its size unchanged) — except in the case
the counterexample forces: a first append into an empty store stores the
page verbatim without deduplication, so a page with duplicate rows shrinks
on the second append.  Under `store ≠ [] ∨ page.Nodup` the reappend is the
identity. -/
theorem append_rows_twice (store page : List JDict)
    (h : store ≠ [] ∨ page.Nodup) :
    append_rows (append_rows store page) page = append_rows store page := by
  by_cases hp : page = []
  · simp [append_rows, hp]
  · by_cases hs : store = []
    · have hnd : page.Nodup := h.resolve_left (fun hc => hc hs)
      have h1 : append_rows store page = page := by
        unfold append_rows
        rw [if_neg hp, hs, if_pos rfl]
      rw [h1]
      unfold append_rows
      rw [if_neg hp, if_neg hp]
      unfold dropDups
      exact dropDupsAux_append_eq [] page page hnd (by simp) (fun x hx => Or.inr hx)
    · have h1 : append_rows store page = dropDups (store ++ page) := by
        unfold append_rows
        rw [if_neg hp, if_neg hs]
      have hne : dropDups (store ++ page) ≠ [] :=
        dropDups_ne_nil _ (fun hc => hs (List.append_eq_nil.mp hc).1)
      rw [h1]
      unfold append_rows
      rw [if_neg hp, if_neg hne]
      unfold dropDups
      exact dropDupsAux_append_eq [] (dropDups (store ++ page)) page
        (nodup_dropDupsAux [] _) (by simp)
        (fun x hx => Or.inr ((mem_dropDups _ x).mpr (List.mem_append_right store hx)))

/-- Witness for C9's amended theorem at a nonempty store. -/
theorem append_rows_twice_witness :
    append_rows (append_rows [[("k", "0")]] [[("a", "1")]]) [[("a", "1")]]
      = append_rows [[("k", "0")]] [[("a", "1")]] :=
  append_rows_twice [[("k", "0")]] [[("a", "1")]] (Or.inl (by decide))

/-! ## Substring, lower-casing and stripping lemmas -/

theorem subOf_iff (p l : List Char) : subOf p l = true ↔ p <:+: l := by
  unfold subOf
  rw [List.any_eq_true, List.infix_iff_prefix_suffix]
  constructor
  · rintro ⟨t, ht, hp⟩
    exact ⟨t, List.isPrefixOf_iff_prefix.mp hp, (List.mem_tails _ _).mp ht⟩
  · rintro ⟨t, hp, ht⟩
    exact ⟨t, (List.mem_tails _ _).mpr ht, List.isPrefixOf_iff_prefix.mpr hp⟩

theorem isWS_lowerChar (c : Char) : isWS (lowerChar c) = isWS c := by
  unfold lowerChar
  cases hf : UPPER_LOWER.find? (fun q => q.1 == c) with
  | none => rfl
  | some q =>
    have hmem : q ∈ UPPER_LOWER := List.mem_of_find?_eq_some hf
    have hq := List.find?_some hf
    simp only [beq_iff_eq] at hq
    have hcq : c = q.1 := hq.symm
    have hws : ∀ q' ∈ UPPER_LOWER, isWS q'.1 = false ∧ isWS q'.2 = false := by decide
    rw [hcq, (hws q hmem).1, Option.map_some', Option.getD_some, (hws q hmem).2]

theorem dropWhile_lowerChars (l : List Char) :
    (lowerChars l).dropWhile isWS = lowerChars (l.dropWhile isWS) := by
  induction l with
  | nil => rfl
  | cons a rest ih =>
    show (lowerChar a :: lowerChars rest).dropWhile isWS
        = lowerChars ((a :: rest).dropWhile isWS)
    rw [List.dropWhile_cons, List.dropWhile_cons, isWS_lowerChar]
    cases h : isWS a with
    | true => rw [if_pos rfl, if_pos rfl]; exact ih
    | false => rw [if_neg (by decide), if_neg (by decide)]; rfl

theorem lowerChars_reverse (l : List Char) :
    lowerChars l.reverse = (lowerChars l).reverse :=
  List.map_reverse lowerChar l

theorem stripChars_lowerChars (l : List Char) :
    stripChars (lowerChars l) = lowerChars (stripChars l) := by
  unfold stripChars
  rw [dropWhile_lowerChars, ← lowerChars_reverse, dropWhile_lowerChars,
    ← lowerChars_reverse]

theorem infix_dropWhile (p l : List Char) (hws : ∀ a ∈ p, isWS a = false)
    (hne : p ≠ []) (h : p <:+: l) : p <:+: l.dropWhile isWS := by
  induction l with
  | nil => exact absurd (List.infix_nil.mp h) hne
  | cons a rest ih =>
    rw [List.dropWhile_cons]
    cases hwa : isWS a with
    | false => simpa [hwa] using h
    | true =>
      simp only [hwa, if_true]
      rcases List.infix_cons_iff.mp h with hp | hi
      · rcases List.prefix_cons_iff.mp hp with rfl | ⟨t, rfl, _⟩
        · exact absurd rfl hne
        · have h6 := hws a (List.mem_cons_self a t)
          rw [hwa] at h6
          exact absurd h6 (by decide)
      · exact ih hi

theorem infix_stripChars (p l : List Char) (hws : ∀ a ∈ p, isWS a = false)
    (hne : p ≠ []) (h : p <:+: l) : p <:+: stripChars l := by
  unfold stripChars
  have h1 : p <:+: l.dropWhile isWS := infix_dropWhile p l hws hne h
  have h2 : p.reverse <:+: (l.dropWhile isWS).reverse := by
    rw [List.reverse_infix]; exact h1
  have h3 : p.reverse <:+: ((l.dropWhile isWS).reverse).dropWhile isWS := by
    refine infix_dropWhile _ _ (fun a ha => hws a (List.mem_reverse.mp ha)) ?_ h2
    intro hc
    exact hne (by rw [← List.reverse_reverse p, hc]; rfl)
  exact List.reverse_infix.mp (by rw [List.reverse_reverse]; exact h3)

/-! ## C8: test-sport records are filtered out -/

/-- A cell containing "(test" case-insensitively is flagged by `isTestVal`
(which strips, then lowers, then tests). -/
theorem isTestVal_of_contains (v : String)
    (h : containsSub (pyLower v) "(test" = true) : isTestVal v = true := by
  have hinf : ("(test".data) <:+: lowerChars v.data := (subOf_iff _ _).mp h
  have hstrip : ("(test".data) <:+: stripChars (lowerChars v.data) :=
    infix_stripChars _ _ (by decide) (by decide) hinf
  rw [stripChars_lowerChars] at hstrip
  have hc : containsSub (normCell v) "(test" = true := (subOf_iff _ _).mpr hstrip
  unfold isTestVal
  rw [hc, Bool.or_true]

/-- C8: any record whose sport field (in whichever of the sport columns the
frame has) is exactly "Cinderball (TEST)" or contains "(test"
case-insensitively is absent from the output of `remove_test_sports`. -/
theorem remove_test_sports_excludes (df : DF) (r : JDict) (c : String)
    (hr : r ∈ df.rows) (hc1 : c ∈ SPORT_COLS) (hc2 : c ∈ df.cols)
    (hv : (dictGet r c).getD "" = "Cinderball (TEST)" ∨
      containsSub (pyLower ((dictGet r c).getD "")) "(test" = true) :
    r ∉ (remove_test_sports df).rows := by
  have htest : isTestVal ((dictGet r c).getD "") = true := by
    rcases hv with hv | hv
    · rw [hv]; decide
    · exact isTestVal_of_contains _ hv
  unfold remove_test_sports
  have hrows : ¬ df.rows.isEmpty = true := by
    rw [List.isEmpty_iff]; exact List.ne_nil_of_mem hr
  rw [if_neg hrows]
  have hcmem : c ∈ SPORT_COLS.filter (fun c' => df.cols.contains c') :=
    List.mem_filter.mpr ⟨hc1, List.elem_iff.mpr hc2⟩
  have hcols : ¬ (SPORT_COLS.filter (fun c' => df.cols.contains c')).isEmpty = true := by
    rw [List.isEmpty_iff]; exact List.ne_nil_of_mem hcmem
  rw [if_neg hcols]
  intro hmem
  have hpred := (List.mem_filter.mp hmem).2
  have hall := (List.all_eq_true.mp hpred) c hcmem
  rw [htest] at hall
  simp at hall

/-- Witness for C8: a one-row frame whose sport is "Cinderball (TEST)" and a
one-row frame whose nomination sport contains "(TeSt" both lose that row. -/
theorem remove_test_sports_excludes_witness :
    [("sport.name", "Cinderball (TEST)")] ∉
      (remove_test_sports ⟨["sport.name"], [[("sport.name", "Cinderball (TEST)")]]⟩).rows ∧
    [("current_nomination.sport.name", "Foo (TeSting)")] ∉
      (remove_test_sports ⟨["current_nomination.sport.name"],
        [[("current_nomination.sport.name", "Foo (TeSting)")]]⟩).rows :=
  ⟨remove_test_sports_excludes _ _ "sport.name" (List.mem_cons_self _ _)
      (by decide) (by decide) (Or.inl (by decide)),
   remove_test_sports_excludes _ _ "current_nomination.sport.name"
      (List.mem_cons_self _ _) (by decide) (by decide) (Or.inr (by decide))⟩

/-! ## C3: page-fetch outcomes -/

theorem contains_addLimit (url : String) :
    containsSub (addLimit url) "limit=" = true := by
  unfold addLimit
  by_cases h : containsSub url "limit=" = true
  · rw [if_pos h]; exact h
  · rw [if_neg h]
    apply (subOf_iff _ _).mpr
    show ("limit=".data) <:+:
      (url ++ (if containsSub url "?" then "&" else "?") ++ "limit="
        ++ toString PAGE_LIMIT).data
    rw [String.data_append, String.data_append, String.data_append,
      List.append_assoc]
    exact (List.prefix_append ("limit=".data) (toString PAGE_LIMIT).data).isInfix.trans
      (List.suffix_append _ _).isInfix

theorem addLimit_of_contains (s : String) (h : containsSub s "limit=" = true) :
    addLimit s = s := by
  unfold addLimit; rw [if_pos h]

/-- Re-requesting a returned continuation hits exactly the same URL. -/
theorem addLimit_idem (url : String) : addLimit (addLimit url) = addLimit url :=
  addLimit_of_contains _ (contains_addLimit url)

/-- C3: with time remaining and a URL to fetch, a fatal outcome (a non-2xx
status outside the retryable set, or an unexpected exception) returns an
empty row list and no continuation, so the caller treats the campus as
finished; a retryable outcome (retryable status, or a connect/read-timeout
or connection-reset failure) returns an empty row list together with the URL
of the attempted page as the continuation — and since `addLimit` is
idempotent, a future invocation re-requests exactly that page, so the cursor
position is never lost. -/
theorem fetch_chunk_outcomes (url : String) (now deadline : Nat)
    (transport : String → HttpOutcome) (hu : url ≠ "") (ht : now < deadline) :
    (isFatalOutcome (transport (addLimit url)) = true →
      fetch_paginated_chunk url now deadline transport = ([], "", 1)) ∧
    (isRetryableOutcome (transport (addLimit url)) = true →
      fetch_paginated_chunk url now deadline transport = ([], addLimit url, 1)) ∧
    addLimit (addLimit url) = addLimit url := by
  have hguard : ¬ (url = "" ∨ deadline ≤ now) := by
    rintro (h | h)
    · exact hu h
    · omega
  refine ⟨fun hf => ?_, fun hr => ?_, addLimit_idem url⟩
  · unfold fetch_paginated_chunk
    rw [if_neg hguard]
    cases hout : transport (addLimit url) with
    | timeoutErr => rw [hout] at hf; exact absurd hf (by decide)
    | otherErr => rfl
    | response s res nxt =>
      rw [hout] at hf
      unfold isFatalOutcome at hf
      rw [Bool.and_eq_true, Bool.not_eq_true', bne_iff_ne] at hf
      have hs1 : ¬ s ∈ RETRYABLE_STATUSES := by
        intro hmem
        have h8 : RETRYABLE_STATUSES.contains s = true := List.elem_iff.mpr hmem
        rw [h8] at hf
        exact absurd hf.1 (by decide)
      dsimp only
      rw [if_neg hs1, if_pos hf.2]
  · unfold fetch_paginated_chunk
    rw [if_neg hguard]
    cases hout : transport (addLimit url) with
    | timeoutErr => rfl
    | otherErr => rw [hout] at hr; exact absurd hr (by decide)
    | response s res nxt =>
      rw [hout] at hr
      unfold isRetryableOutcome at hr
      dsimp only
      rw [if_pos (List.elem_iff.mp hr)]

/-- Witness for C3: a 404 response is fatal and exhausts the source; a
timeout on a URL already carrying `limit=` returns that very URL as the
continuation. -/
theorem fetch_chunk_outcomes_witness :
    fetch_paginated_chunk "http://x?campus_id=1" 0 10
      (fun _ => HttpOutcome.response 404 [] "") = ([], "", 1) ∧
    fetch_paginated_chunk "http://x?campus_id=1&limit=50" 0 10
      (fun _ => HttpOutcome.timeoutErr) = ([], "http://x?campus_id=1&limit=50", 1) := by
  constructor
  · exact (fetch_chunk_outcomes "http://x?campus_id=1" 0 10 _
      (by decide) (by decide)).1 (by decide)
  · rw [(fetch_chunk_outcomes "http://x?campus_id=1&limit=50" 0 10 _
      (by decide) (by decide)).2.1 (by decide)]
    rfl

/-! ## C1, C2, C5: one page per trigger, reset condition, done is a no-op -/

theorem chunk_requests_le_one (url : String) (now deadline : Nat)
    (transport : String → HttpOutcome) :
    (fetch_paginated_chunk url now deadline transport).2.2 ≤ 1 := by
  unfold fetch_paginated_chunk
  by_cases hg : url = "" ∨ deadline ≤ now
  · rw [if_pos hg]; exact Nat.zero_le 1
  · rw [if_neg hg]
    cases hout : transport (addLimit url) with
    | timeoutErr => exact Nat.le_refl 1
    | otherErr => exact Nat.le_refl 1
    | response s res nxt =>
      dsimp only
      by_cases h1 : s ∈ RETRYABLE_STATUSES
      · rw [if_pos h1]
      · rw [if_neg h1]
        by_cases h2 : s ≠ 200
        · rw [if_pos h2]
        · rw [if_neg h2]

/-- C1 counterexample: on a fresh, not-done run with the clock far from the
deadline and a transport that answers every request with a full page and a
continuation, one invocation of the fetch callback issues exactly one HTTP
request and returns with the continuation stored and the run not done —
it does not loop back for the next page within the same invocation. -/
theorem advance_single_page_counterexample :
    (advance [] (freshState [1, 2]) []
      ⟨"", 0, 0, fun _ => HttpOutcome.response 200 [JSON.obj [("id", JSON.int 1)]] "nxt"⟩).requests = 1 ∧
    (advance [] (freshState [1, 2]) []
      ⟨"", 0, 0, fun _ => HttpOutcome.response 200 [JSON.obj [("id", JSON.int 1)]] "nxt"⟩).state.done = false ∧
    (advance [] (freshState [1, 2]) []
      ⟨"", 0, 0, fun _ => HttpOutcome.response 200 [JSON.obj [("id", JSON.int 1)]] "nxt"⟩).state.next_url = "nxt" ∧
    (0 : Nat) < MAX_FETCH_SECONDS := by
  refine ⟨?_, ?_, ?_, ?_⟩ <;> decide

/-- C1 amended: each invocation of the fetch callback performs at most one
HTTP request (fetches at most one page); when that page yields a
continuation the invocation ends — with the run not done, the continuation
stored as the resume point, and the active campus unchanged — and the next
page is fetched by the next externally triggered invocation (the auto-fetch
interval), not by an internal loop. -/
theorem advance_single_page (cityMap : List (String × String)) (st : FetchState)
    (store : List JDict) (tk : Tick) :
    (advance cityMap st store tk).requests ≤ 1 ∧
    ((advance cityMap st store tk).cont ≠ "" →
      (advance cityMap st store tk).state.done = false ∧
      (advance cityMap st store tk).state.next_url = (advance cityMap st store tk).cont ∧
      (advance cityMap st store tk).state.current_index = st.current_index) := by
  unfold advance
  by_cases hg : st.done = false ∧ st.current_index < st.campus_ids.length ∧
      tk.e1 < MAX_FETCH_SECONDS
  · rw [if_pos hg]
    refine ⟨chunk_requests_le_one _ _ _ _, fun hcont => ?_⟩
    dsimp only at hcont ⊢
    unfold updState
    rw [if_pos hcont]
    exact ⟨hg.1, rfl, rfl⟩
  · rw [if_neg hg]
    exact ⟨Nat.zero_le 1, fun hcont => absurd rfl hcont⟩

/-- Witness for C1's amended theorem: a successful page with continuation
"more" leaves the run not done with that continuation stored. -/
theorem advance_single_page_witness :
    (advance [] (freshState [3]) []
      ⟨"", 1, 1, fun _ => HttpOutcome.response 200 [] "more"⟩).state.done = false ∧
    (advance [] (freshState [3]) []
      ⟨"", 1, 1, fun _ => HttpOutcome.response 200 [] "more"⟩).state.next_url
      = (advance [] (freshState [3]) []
          ⟨"", 1, 1, fun _ => HttpOutcome.response 200 [] "more"⟩).cont :=
  ⟨((advance_single_page [] (freshState [3]) []
      ⟨"", 1, 1, fun _ => HttpOutcome.response 200 [] "more"⟩).2 (by decide)).1,
   ((advance_single_page [] (freshState [3]) []
      ⟨"", 1, 1, fun _ => HttpOutcome.response 200 [] "more"⟩).2 (by decide)).2.1⟩

/-- C2 counterexample: with a previous run still mid-flight (done = false)
and the Fetch button on its second click, the state — active index 3,
continuation "u", accumulated rows — and the store survive untouched: the
click continues the active cycle instead of resetting it. -/
theorem resetOnFetchClick_counterexample :
    resetOnFetchClick ⟨allCampusIds, 3, "u", false, 7⟩ [[("a", "1")]] 2
      = (⟨allCampusIds, 3, "u", false, 7⟩, [[("a", "1")]]) ∧
    (⟨allCampusIds, 3, "u", false, 7⟩ : FetchState).current_index ≠ 0 := by
  constructor <;> decide

/-- C2 amended: the Fetch button resets — clearing the accumulation store,
rebuilding the full campus list with a fresh not-started position (index 0,
no continuation) and done = false — exactly when the previous run is done or
this is the first click (`n_clicks ≤ 1`); a Fetch click while a run is still
mid-flight leaves both the run state and the store unchanged and continues
the active cycle (the two runs are merged rather than superseded). -/
theorem fetch_click_reset (st : FetchState) (store : List JDict) (n : Nat) :
    (st.done = true ∨ n ≤ 1 →
      resetOnFetchClick st store n = (freshState allCampusIds, [])) ∧
    (st.done = false → 1 < n → resetOnFetchClick st store n = (st, store)) := by
  constructor
  · intro h
    unfold resetOnFetchClick
    rw [if_pos h]
  · intro h1 h2
    unfold resetOnFetchClick
    rw [if_neg ?_]
    rintro (hc | hc)
    · rw [h1] at hc; exact absurd hc (by decide)
    · omega

/-- Witness for C2's amended theorem: a done run resets on click 5; a
mid-flight run is untouched by click 5. -/
theorem fetch_click_reset_witness :
    resetOnFetchClick ⟨allCampusIds, 3, "u", true, 7⟩ [[("a", "1")]] 5
      = (freshState allCampusIds, []) ∧
    resetOnFetchClick ⟨allCampusIds, 3, "u", false, 7⟩ [[("a", "1")]] 5
      = (⟨allCampusIds, 3, "u", false, 7⟩, [[("a", "1")]]) :=
  ⟨(fetch_click_reset ⟨allCampusIds, 3, "u", true, 7⟩ [[("a", "1")]] 5).1 (Or.inl rfl),
   (fetch_click_reset ⟨allCampusIds, 3, "u", false, 7⟩ [[("a", "1")]] 5).2 rfl (by omega)⟩

/-- C5: invoking the fetch callback on a done run is a no-op: no HTTP
request is issued, no rows are produced, both the accumulation store and the
fetch-run state are unchanged, and the run still reports done. -/
theorem advance_done_noop (cityMap : List (String × String)) (st : FetchState)
    (store : List JDict) (tk : Tick) (h : st.done = true) :
    (advance cityMap st store tk).state = st ∧
    (advance cityMap st store tk).store = store ∧
    (advance cityMap st store tk).newRows = [] ∧
    (advance cityMap st store tk).requests = 0 ∧
    (advance cityMap st store tk).state.done = true := by
  have hguard : ¬ (st.done = false ∧ st.current_index < st.campus_ids.length ∧
      tk.e1 < MAX_FETCH_SECONDS) := by
    rintro ⟨h1, _⟩
    rw [h] at h1
    exact absurd h1 (by decide)
  unfold advance
  rw [if_neg hguard]
  exact ⟨rfl, rfl, rfl, rfl, h⟩

/-- Witness for C5 at a concrete done state. -/
theorem advance_done_noop_witness :
    (advance [] ⟨[1, 2], 2, "", true, 5⟩ [[("a", "1")]] defaultTick).state
      = ⟨[1, 2], 2, "", true, 5⟩ ∧
    (advance [] ⟨[1, 2], 2, "", true, 5⟩ [[("a", "1")]] defaultTick).store
      = [[("a", "1")]] ∧
    (advance [] ⟨[1, 2], 2, "", true, 5⟩ [[("a", "1")]] defaultTick).newRows = [] ∧
    (advance [] ⟨[1, 2], 2, "", true, 5⟩ [[("a", "1")]] defaultTick).requests = 0 ∧
    (advance [] ⟨[1, 2], 2, "", true, 5⟩ [[("a", "1")]] defaultTick).state.done = true :=
  advance_done_noop [] ⟨[1, 2], 2, "", true, 5⟩ [[("a", "1")]] defaultTick rfl

/-! ## C4: no interleaving across sources -/

theorem advance_campus_ids (cm : List (String × String)) (st : FetchState) (tk : Tick) :
    (advance cm st [] tk).state.campus_ids = st.campus_ids := by
  unfold advance
  by_cases hg : st.done = false ∧ st.current_index < st.campus_ids.length ∧
      tk.e1 < MAX_FETCH_SECONDS
  · rw [if_pos hg]
    dsimp only
    unfold updState
    split <;> rfl
  · rw [if_neg hg]

theorem advance_index_cases (cm : List (String × String)) (st : FetchState) (tk : Tick) :
    (advance cm st [] tk).state.current_index = st.current_index ∨
    ((advance cm st [] tk).state.current_index = st.current_index + 1 ∧
      (advance cm st [] tk).cont = "") := by
  unfold advance
  by_cases hg : st.done = false ∧ st.current_index < st.campus_ids.length ∧
      tk.e1 < MAX_FETCH_SECONDS
  · rw [if_pos hg]
    dsimp only
    unfold updState
    split
    · exact Or.inl rfl
    · next h => exact Or.inr ⟨rfl, not_not.mp h⟩
  · rw [if_neg hg]
    exact Or.inl rfl

theorem advance_cont_stay (cm : List (String × String)) (st : FetchState) (tk : Tick)
    (h : (advance cm st [] tk).cont ≠ "") :
    (advance cm st [] tk).state.current_index = st.current_index ∧
    (advance cm st [] tk).state.next_url = (advance cm st [] tk).cont := by
  unfold advance at h ⊢
  by_cases hg : st.done = false ∧ st.current_index < st.campus_ids.length ∧
      tk.e1 < MAX_FETCH_SECONDS
  · rw [if_pos hg] at h ⊢
    dsimp only at h ⊢
    unfold updState
    rw [if_pos h]
    exact ⟨rfl, rfl⟩
  · rw [if_neg hg] at h
    exact absurd rfl h

theorem advance_emits_at_index (cm : List (String × String)) (st : FetchState) (tk : Tick) :
    ∀ r ∈ (advance cm st [] tk).newRows,
      dictGet r "campus_id" = some (toString (st.campus_ids.getD st.current_index 0)) := by
  unfold advance
  by_cases hg : st.done = false ∧ st.current_index < st.campus_ids.length ∧
      tk.e1 < MAX_FETCH_SECONDS
  · rw [if_pos hg]
    dsimp only
    intro r hr
    rcases List.mem_map.mp hr with ⟨p, _, rfl⟩
    exact flatten_profile_campus_id cm p _
  · rw [if_neg hg]
    intro r hr
    exact absurd hr (List.not_mem_nil r)

theorem stAfter_zero (cm : List (String × String)) (st : FetchState)
    (ticks : List Tick) : stAfter cm st ticks 0 = st := by
  cases ticks <;> rfl

theorem stAfter_campus_ids (cm : List (String × String)) (st : FetchState)
    (ticks : List Tick) (k : Nat) :
    (stAfter cm st ticks k).campus_ids = st.campus_ids := by
  induction ticks generalizing st k with
  | nil => rfl
  | cons tk rest ih =>
    cases k with
    | zero => rfl
    | succ k =>
      show (stAfter cm (stepState cm st tk) rest k).campus_ids = st.campus_ids
      rw [ih]
      exact advance_campus_ids cm st tk

theorem stAfter_succ_lt (cm : List (String × String)) (st : FetchState)
    (ticks : List Tick) (k : Nat) (h : k < ticks.length) :
    stAfter cm st ticks (k + 1) = stepState cm (stAfter cm st ticks k) (tickAt ticks k) := by
  induction ticks generalizing st k with
  | nil => simp at h
  | cons tk rest ih =>
    cases k with
    | zero =>
      show stAfter cm (stepState cm st tk) rest 0
          = stepState cm (stAfter cm st (tk :: rest) 0) (tickAt (tk :: rest) 0)
      rw [stAfter_zero]
      rfl
    | succ k =>
      show stAfter cm (stepState cm st tk) rest (k + 1) = _
      rw [ih _ _ (by simpa using h)]
      rfl

theorem stAfter_succ_ge (cm : List (String × String)) (st : FetchState)
    (ticks : List Tick) (k : Nat) (h : ticks.length ≤ k) :
    stAfter cm st ticks (k + 1) = stAfter cm st ticks k := by
  induction ticks generalizing st k with
  | nil => rfl
  | cons tk rest ih =>
    cases k with
    | zero => simp at h
    | succ k =>
      show stAfter cm (stepState cm st tk) rest (k + 1)
          = stAfter cm (stepState cm st tk) rest k
      exact ih _ _ (by simpa using h)

theorem idxAt_step (cm : List (String × String)) (campuses : List Nat)
    (ticks : List Tick) (k : Nat) :
    idxAt cm campuses ticks (k + 1) = idxAt cm campuses ticks k ∨
    (idxAt cm campuses ticks (k + 1) = idxAt cm campuses ticks k + 1 ∧
      contAt cm campuses ticks k = "") := by
  by_cases h : k < ticks.length
  · unfold idxAt contAt
    rw [stAfter_succ_lt cm _ ticks k h]
    unfold stepState
    exact advance_index_cases cm _ (tickAt ticks k)
  · left
    unfold idxAt
    rw [stAfter_succ_ge cm _ ticks k (Nat.le_of_not_lt h)]

theorem idxAt_mono (cm : List (String × String)) (campuses : List Nat)
    (ticks : List Tick) : Monotone (idxAt cm campuses ticks) :=
  monotone_nat_of_le_succ (fun k => by
    rcases idxAt_step cm campuses ticks k with h | ⟨h, _⟩ <;> omega)

theorem idxAt_crossing (cm : List (String × String)) (campuses : List Nat)
    (ticks : List Tick) (t i : Nat) (h : i < idxAt cm campuses ticks t) :
    ∃ t' < t, idxAt cm campuses ticks t' = i ∧
      idxAt cm campuses ticks (t' + 1) = i + 1 ∧ contAt cm campuses ticks t' = "" := by
  induction t with
  | zero =>
    have h0 : idxAt cm campuses ticks 0 = 0 := by
      unfold idxAt
      rw [stAfter_zero]
      rfl
    omega
  | succ t ih =>
    by_cases hi : i < idxAt cm campuses ticks t
    · obtain ⟨t', ht', rest⟩ := ih hi
      exact ⟨t', Nat.lt_succ_of_lt ht', rest⟩
    · have hge : idxAt cm campuses ticks t ≤ i := Nat.le_of_not_lt hi
      rcases idxAt_step cm campuses ticks t with hstep | ⟨hstep, hcont⟩
      · omega
      · have hieq : idxAt cm campuses ticks t = i := by omega
        exact ⟨t, Nat.lt_succ_self t, hieq, by omega, hcont⟩

/-- C4: within one run started fresh over `campuses`, every row produced at
trigger `t` is tagged with the campus at the active index; while the page
fetch returns a continuation the orchestrator stays on the same campus
(storing the continuation); the active index moves only to the next campus
and only when the fetch returned no continuation; and whenever the active
index has reached position past `i`, there was an earlier trigger at which
campus `i` was the active campus and its fetch returned no continuation
(campus `i` was exhausted) — so no record of a later campus is fetched
before every earlier campus is exhausted. -/
theorem fetch_no_interleaving (cityMap : List (String × String)) (campuses : List Nat)
    (ticks : List Tick) (t i : Nat) :
    (∀ r ∈ (advance cityMap (stAfter cityMap (freshState campuses) ticks t) []
        (tickAt ticks t)).newRows,
      dictGet r "campus_id"
        = some (toString (campuses.getD (idxAt cityMap campuses ticks t) 0))) ∧
    ((advance cityMap (stAfter cityMap (freshState campuses) ticks t) []
        (tickAt ticks t)).cont ≠ "" →
      (advance cityMap (stAfter cityMap (freshState campuses) ticks t) []
        (tickAt ticks t)).state.current_index = idxAt cityMap campuses ticks t ∧
      (advance cityMap (stAfter cityMap (freshState campuses) ticks t) []
        (tickAt ticks t)).state.next_url
        = (advance cityMap (stAfter cityMap (freshState campuses) ticks t) []
            (tickAt ticks t)).cont) ∧
    ((advance cityMap (stAfter cityMap (freshState campuses) ticks t) []
        (tickAt ticks t)).state.current_index ≠ idxAt cityMap campuses ticks t →
      (advance cityMap (stAfter cityMap (freshState campuses) ticks t) []
        (tickAt ticks t)).state.current_index = idxAt cityMap campuses ticks t + 1 ∧
      (advance cityMap (stAfter cityMap (freshState campuses) ticks t) []
        (tickAt ticks t)).cont = "") ∧
    (i < idxAt cityMap campuses ticks t →
      ∃ t' < t, idxAt cityMap campuses ticks t' = i ∧
        idxAt cityMap campuses ticks (t' + 1) = i + 1 ∧
        contAt cityMap campuses ticks t' = "") := by
  refine ⟨?_, ?_, ?_, idxAt_crossing cityMap campuses ticks t i⟩
  · intro r hr
    have h1 := advance_emits_at_index cityMap
      (stAfter cityMap (freshState campuses) ticks t) (tickAt ticks t) r hr
    rw [stAfter_campus_ids] at h1
    exact h1
  · exact advance_cont_stay cityMap _ (tickAt ticks t)
  · intro hne
    rcases advance_index_cases cityMap
        (stAfter cityMap (freshState campuses) ticks t) (tickAt ticks t) with h | h
    · exact absurd h hne
    · exact h

/-- Witness for C4: campus at position 0 is exhausted at trigger 0 (a final
page with no continuation), and at trigger 1 — where the active index is 1 —
the crossing part recovers that earlier exhaustion step. -/
theorem fetch_no_interleaving_witness :
    ∃ t' < 1,
      idxAt [] [1, 2]
        [⟨"", 0, 0, fun _ => HttpOutcome.response 200 [] ""⟩,
         ⟨"", 0, 0, fun _ => HttpOutcome.response 200 [JSON.obj [("id", JSON.int 2)]] "n2"⟩] t' = 0 ∧
      idxAt [] [1, 2]
        [⟨"", 0, 0, fun _ => HttpOutcome.response 200 [] ""⟩,
         ⟨"", 0, 0, fun _ => HttpOutcome.response 200 [JSON.obj [("id", JSON.int 2)]] "n2"⟩] (t' + 1) = 1 ∧
      contAt [] [1, 2]
        [⟨"", 0, 0, fun _ => HttpOutcome.response 200 [] ""⟩,
         ⟨"", 0, 0, fun _ => HttpOutcome.response 200 [JSON.obj [("id", JSON.int 2)]] "n2"⟩] t' = "" :=
  (fetch_no_interleaving [] [1, 2]
    [⟨"", 0, 0, fun _ => HttpOutcome.response 200 [] ""⟩,
     ⟨"", 0, 0, fun _ => HttpOutcome.response 200 [JSON.obj [("id", JSON.int 2)]] "n2"⟩]
    1 0).2.2.2 (by decide)

end ListGen
